import Mathlib

/-!
# Verification of the DOI (Division of Interest) generator core

A shallow embedding of the data model and aggregation logic of the DOI
report generator (`src/app.py`), together with proofs about the claims of
its specification.

Conventions of the embedding:

* Scalar spreadsheet cells are modelled by `Cell`: a missing value (pandas
  `NaN`), a numeric value, or a text value.  Python floats are modelled as
  exact rationals (`ℚ`); floating-point rounding, `inf` and `nan` literals
  and digit-group underscores in numeric literals are outside the model.
* A data row (`Row`) is an association list from column name to `Cell`,
  mirroring `row.get(col, default)` access on a pandas row.
* String primitives (`strTrim`, `strLower`, `strUpper`) are defined by
  structural recursion over the character list so that every definition
  evaluates by kernel reduction; they model Python's `str.strip`,
  `str.lower`, `str.upper` on the ASCII range.
* Worksheet presentation (fonts, borders, column widths, page setup) is out
  of scope, as is the within-sheet display order of rows; the logical
  emitted rows, the derived cell values and all totals are modelled.
-/

/-- Whitespace test used by the model of Python `str.strip` / `float`. -/
def isWS (c : Char) : Bool :=
  decide (c.toNat = 32 ∨ c.toNat = 9 ∨ c.toNat = 10 ∨ c.toNat = 11 ∨
    c.toNat = 12 ∨ c.toNat = 13)

/-- Model of Python `str.strip()` (ASCII whitespace). -/
def strTrim (s : String) : String :=
  ⟨((s.data.dropWhile isWS).reverse.dropWhile isWS).reverse⟩

/-- Lower-case one ASCII character. -/
def charLower (c : Char) : Char :=
  if 65 ≤ c.toNat ∧ c.toNat ≤ 90 then Char.ofNat (c.toNat + 32) else c

/-- Upper-case one ASCII character. -/
def charUpper (c : Char) : Char :=
  if 97 ≤ c.toNat ∧ c.toNat ≤ 122 then Char.ofNat (c.toNat - 32) else c

/-- Model of Python `str.lower()` (ASCII range). -/
def strLower (s : String) : String := ⟨s.data.map charLower⟩

/-- Model of Python `str.upper()` (ASCII range). -/
def strUpper (s : String) : String := ⟨s.data.map charUpper⟩

/-- A spreadsheet cell as seen by the loaders and engines: missing
(`NaN`), numeric, or textual. -/
inductive Cell where
  | na : Cell
  | num : ℚ → Cell
  | str : String → Cell
deriving DecidableEq

/-- Value of a natural-number digit string, most significant digit first. -/
def digitsVal (l : List Char) : ℕ :=
  l.foldl (fun a c => 10 * a + (c.toNat - 48)) 0

/-- Ten to a natural power, as an integer (kernel-evaluable). -/
def ipow10 (n : ℕ) : ℤ := ((10 ^ n : ℕ) : ℤ)

/-- Ten to an integer power, as a rational. -/
def tenPow (e : ℤ) : ℚ := (10 : ℚ) ^ e

/-- Value of a decimal mantissa/exponent pair `(m, e)`, namely `m·10^e`. -/
def decVal (p : ℤ × ℤ) : ℚ := (p.1 : ℚ) * tenPow p.2

/-- Parse the digits of an optionally signed integer; the whole input must
be consumed.  Models the exponent part of a Python float literal. -/
def parseSignedInt (l : List Char) : Option ℤ :=
  match l with
  | '+' :: r => if r ≠ [] ∧ r.all (·.isDigit) then some (digitsVal r) else none
  | '-' :: r => if r ≠ [] ∧ r.all (·.isDigit) then some (-(digitsVal r : ℤ)) else none
  | r => if r ≠ [] ∧ r.all (·.isDigit) then some (digitsVal r) else none

/-- Parse the tail after the mantissa: empty, or `e`/`E` plus an integer. -/
def parseExpTail (l : List Char) : Option ℤ :=
  match l with
  | [] => some 0
  | c :: r => if c = 'e' ∨ c = 'E' then parseSignedInt r else none

/-- Parse an unsigned Python float literal into mantissa/exponent form:
digits, optional fraction, optional exponent.  The value represented is
`m · 10^e`. -/
def parseUnsignedDec (l : List Char) : Option (ℤ × ℤ) :=
  let ip := l.takeWhile (·.isDigit)
  let r1 := l.dropWhile (·.isDigit)
  match r1 with
  | '.' :: r2 =>
    let fp := r2.takeWhile (·.isDigit)
    let r3 := r2.dropWhile (·.isDigit)
    if ip.isEmpty ∧ fp.isEmpty then none
    else (parseExpTail r3).map
      (fun e => ((digitsVal (ip ++ fp) : ℤ), e - (fp.length : ℤ)))
  | _ =>
    if ip.isEmpty then none
    else (parseExpTail r1).map (fun e => ((digitsVal ip : ℤ), e))

/-- Model of Python `float(s)` acceptance on finite decimal literals,
returning mantissa/exponent form.  Surrounding whitespace is tolerated, as
by `float`.  (`inf`/`nan` spellings and `_` digit separators are outside
the model.) -/
def parseDec (s : String) : Option (ℤ × ℤ) :=
  match (strTrim s).data with
  | '+' :: r => parseUnsignedDec r
  | '-' :: r => (parseUnsignedDec r).map (fun p => (-p.1, p.2))
  | r => parseUnsignedDec r

/-- Model of Python `float(s)` on finite decimal literals, as a rational. -/
def parseFloat (s : String) : Option ℚ := (parseDec s).map decVal

/-- Whether the value `m·10^e` is an integer (kernel-evaluable). -/
def decIsInt (p : ℤ × ℤ) : Bool :=
  if 0 ≤ p.2 then true else decide (p.1 % ipow10 (-p.2).toNat = 0)

/-- The integer value of `m·10^e` when `decIsInt`; models `int(num)` of
Python on the exact case. -/
def decIntVal (p : ℤ × ℤ) : ℤ :=
  if 0 ≤ p.2 then p.1 * ipow10 p.2.toNat else p.1 / ipow10 (-p.2).toNat

/-- Display form of a numeric cell, modelling Python `str(float)` far
enough for the claims: whole floats print as `"<int>.0"`.  The printed
text of a non-integral float is abstracted as `"<num>/<den>"`; no theorem
depends on its exact characters, only that it is non-blank and not a
reserved marker word. -/
def floatRepr (q : ℚ) : String :=
  if q.den = 1 then toString q.num ++ ".0"
  else toString q.num ++ "/" ++ toString q.den

/-- Model of Python `str(cell)`: `NaN` prints `"nan"`. -/
def pyStr (c : Cell) : String :=
  match c with
  | .na => "nan"
  | .num q => floatRepr q
  | .str s => s

/-- Python truthiness of a cell (`NaN` is truthy, `''` and `0` falsy);
used to model `value or ''`. -/
def cellTruthy (c : Cell) : Bool :=
  match c with
  | .na => true
  | .num q => decide (q ≠ 0)
  | .str s => decide (s ≠ "")

/-- Model of Python `a or b` on cells. -/
def cellOr (a b : Cell) : Cell := if cellTruthy a then a else b

/-- Embedding of `safe_float` (app.py:80-95): missing, blank and
unparseable values fall back to the default. -/
def safeFloat (c : Cell) (d : ℚ) : ℚ :=
  match c with
  | .na => d
  | .num q => q
  | .str s =>
    let t := strTrim s
    if t = "" then d else ((parseFloat t).getD d)

/-- Embedding of `normalize_tract` (app.py:98-110): missing becomes `""`;
text parseable as a float with integral value becomes the integer's
decimal string; anything else is returned trimmed. -/
def normalizeTract (c : Cell) : String :=
  match c with
  | .na => ""
  | .num q => if q.den = 1 then toString q.num else floatRepr q
  | .str s =>
    let t := strTrim s
    match parseDec t with
    | some p => if decIsInt p then toString (decIntVal p) else t
    | none => t

/-- A data row: association list from column name to cell, as produced by
the Ownership Dataset Loader (which also guarantees the `TRACT` column
holds the non-empty normalized tract string). -/
abbrev Row : Type := List (String × Cell)

/-- Model of pandas `row.get(col, default)`. -/
def rowGet (r : Row) (col : String) (d : Cell) : Cell :=
  match r.lookup col with
  | some c => c
  | none => d

/-- An ownership dataset: the loaded `Combined` rows. -/
abbrev Df : Type := List Row

/-- The `OWNER` cell of a row. -/
def ownerCell (r : Row) : Cell := rowGet r "OWNER" Cell.na

/-- The `TYPE` cell of a row. -/
def typeCell (r : Row) : Cell := rowGet r "TYPE" Cell.na

/-- Test `df['TYPE'] == code` for one row. -/
def isType (r : Row) (code : String) : Bool := decide (typeCell r = Cell.str code)

/-- The tract identifier of a row.  The loader normalizes `TRACT` cells to
non-empty strings (app.py:173-174), so the cell's display string is the
tract key. -/
def tractOf (r : Row) : String := pyStr (rowGet r "TRACT" Cell.na)

/-- The owner key used by the exclusion filters:
`astype(str).str.lower().str.strip()` (app.py:317, 663). -/
def ownerKey (r : Row) : String := strTrim (strLower (pyStr (ownerCell r)))

/-- The placeholder-owner exclusion test applied to every category sheet
(app.py:317, 663). -/
def ownerExcluded (r : Row) : Bool :=
  decide (ownerKey r ∈ (["none.", "none", "nan", ""] : List String))

/-- Lease string as read when building the royalty lookup:
`str(row.get('LEASE NO.', '') or '').strip()` (app.py:306, 645). -/
def leaseRaw (r : Row) : String :=
  strTrim (pyStr (cellOr (rowGet r "LEASE NO." (Cell.str "")) (Cell.str "")))

/-- Lease string as used on emitted data rows, where a literal `"nan"`
is blanked (app.py:419-421, 746-748). -/
def leaseNoOf (r : Row) : String :=
  let l := leaseRaw r
  if l = "nan" then "" else l

/-- The row's precomputed `TRACT NRI` value, defaulted to 0
(app.py:416, 743). -/
def trNRI (r : Row) : ℚ := safeFloat (rowGet r "TRACT NRI" (Cell.num 0)) 0

/-- The row's `DECIMAL INTEREST` value (WI column), defaulted to 0
(app.py:461, 783). -/
def wiVal (r : Row) : ℚ := safeFloat (rowGet r "DECIMAL INTEREST" (Cell.num 0)) 0

/-- The row's `ORI BURDENS` value, defaulted to 0 (app.py:465, 786). -/
def oriBurdensOf (r : Row) : ℚ := safeFloat (rowGet r "ORI BURDENS" (Cell.num 0)) 0

/-- The row's `WI (TRACT)` value, defaulted to its `DECIMAL INTEREST`
(app.py:466, 787). -/
def wiTractOf (r : Row) : ℚ :=
  safeFloat (rowGet r "WI (TRACT)" (Cell.num (wiVal r))) 0

/-- The row's `NET ACRES` value, defaulted to 0 (app.py:471, 792). -/
def netAcresOf (r : Row) : ℚ := safeFloat (rowGet r "NET ACRES" (Cell.num 0)) 0

/-- The row's `LEASE ROYALTY` value, defaulted to 0 (app.py:307, 646). -/
def leaseRoyaltyOf (r : Row) : ℚ :=
  safeFloat (rowGet r "LEASE ROYALTY" (Cell.num 0)) 0

/-- The MI rows of one tract, in dataset order (app.py:301-305,
640-644). -/
def miRows (df : Df) (t : String) : List Row :=
  df.filter (fun r => isType r "MI" && decide (tractOf r = t))

/-- Python `dict` assignment on an association list: replace the first
binding in place, else append. -/
def updateDict {β : Type} : List (String × β) → String → β → List (String × β)
  | [], k, v => [(k, v)]
  | (k1, v1) :: d, k, v =>
    if k1 = k then (k, v) :: d else (k1, v1) :: updateDict d k v

/-- Python `dict.get` on an association list. -/
def dictGet {β : Type} : List (String × β) → String → Option β
  | [], _ => none
  | (k1, v1) :: d, k => if k = k1 then some v1 else dictGet d k

/-- One step of building the per-tract royalty lookup (app.py:305-311,
644-650): record the lease's rate when the lease string is non-empty, and
set the `default` entry the first time through. -/
def loriStep (d : List (String × ℚ)) (r : Row) : List (String × ℚ) :=
  let lease := leaseRaw r
  let rate := leaseRoyaltyOf r
  let d1 := if lease = "" then d else updateDict d lease rate
  if (dictGet d1 "default").isSome then d1 else d1 ++ [("default", rate)]

/-- The Burden Resolver's per-tract lookup (`lori_lookup[tract]`,
app.py:300-311, 639-650); empty when the tract has no MI rows, matching
`lori_lookup.get(tract, {})`. -/
def buildLori (df : Df) (t : String) : List (String × ℚ) :=
  (miRows df t).foldl loriStep []

/-- Royalty-rate resolution for a WI row:
`tract_lori.get(lease_no, tract_lori.get('default', 0))`
(app.py:463-464, 784-785). -/
def resolveLori (df : Df) (t lease : String) : ℚ :=
  ((dictGet (buildLori df t) lease).getD
    ((dictGet (buildLori df t) "default").getD 0))

/-- The numeric cells of an emitted WI data row (app.py:460-477 for the
tract-based sheet; app.py:782-799 compute the same chain for the
unit-based sheet).  The `TRACT NRI` cell is the row's precomputed input
value; the chain factors `1 − lori − ori_burdens` and `wi_tract` are
displayed beside it. -/
structure WIValues where
  wi : ℚ
  netAcres : ℚ
  lori : ℚ
  oriBurdens : ℚ
  wiTract : ℚ
  tractNri : ℚ
deriving DecidableEq

/-- Compute the emitted WI cells for a row against a dataset (the dataset
determines the royalty lookup). -/
def wiRowValues (df : Df) (r : Row) : WIValues :=
  { wi := wiVal r
    netAcres := netAcresOf r
    lori := resolveLori df (tractOf r) (leaseNoOf r)
    oriBurdens := oriBurdensOf r
    wiTract := wiTractOf r
    tractNri := trNRI r }

/-- Integer comparison of two mantissa/exponent pairs by value
(`m₁·10^e₁ ≤ m₂·10^e₂`), kernel-evaluable: both sides are scaled by
`10^(-min e₁ e₂)`. -/
def numLE (p q : ℤ × ℤ) : Bool :=
  let e := min p.2 q.2
  decide (p.1 * ipow10 (p.2 - e).toNat ≤ q.1 * ipow10 (q.2 - e).toNat)

/-- Lexicographic strict order on character lists, modelling Python string
comparison by code point. -/
def chListLT : List Char → List Char → Bool
  | [], [] => false
  | [], _ :: _ => true
  | _ :: _, [] => false
  | a :: as, b :: bs => if a < b then true else if a = b then chListLT as bs else false

/-- The text sort key of a non-numeric tract string (app.py:132-140): the
string split as lazy head plus maximal trailing digit run, the head
lower-cased; a string without trailing digits keys as itself lower-cased
with suffix 0. -/
def tractTextKey (s : String) : List Char × ℕ :=
  let cs := s.data
  let ds := (cs.reverse.takeWhile (·.isDigit)).reverse
  if ds.isEmpty then ((strLower s).data, 0)
  else ((strLower ⟨cs.take (cs.length - ds.length)⟩).data, digitsVal ds)

/-- The sort key of `tract_sort_key` (app.py:113-140): float-parseable
strings key by numeric value (and sort before all text keys), others by
their text key. -/
def tractKey (s : String) : Sum (ℤ × ℤ) (List Char × ℕ) :=
  match parseDec s with
  | some p => Sum.inl p
  | none => Sum.inr (tractTextKey s)

/-- Comparison of two tract sort keys, mirroring Python tuple comparison
of `(0, num, '')` and `(1, text, n)` keys. -/
def keyLE : Sum (ℤ × ℤ) (List Char × ℕ) → Sum (ℤ × ℤ) (List Char × ℕ) → Bool
  | .inl p, .inl q => numLE p q
  | .inl _, .inr _ => true
  | .inr _, .inl _ => false
  | .inr a, .inr b => chListLT a.1 b.1 || (decide (a.1 = b.1) && decide (a.2 ≤ b.2))

/-- Boolean total preorder on tract identifier strings induced by
`tract_sort_key`. -/
def tractLeB (a b : String) : Bool := keyLE (tractKey a) (tractKey b)

/-- The tract ordering as a decidable relation. -/
def tractLe (a b : String) : Prop := tractLeB a b = true

instance : DecidableRel tractLe := fun a b =>
  inferInstanceAs (Decidable (tractLeB a b = true))

/-- First-occurrence deduplication, modelling pandas `Series.unique`. -/
def uniqueAux {α : Type} [DecidableEq α] (seen : List α) : List α → List α
  | [] => []
  | a :: l => if a ∈ seen then uniqueAux seen l else a :: uniqueAux (a :: seen) l

/-- First-occurrence list of distinct values, modelling `unique()`. -/
def uniqueList {α : Type} [DecidableEq α] (l : List α) : List α := uniqueAux [] l

/-- The distinct tract identifiers of a dataset, in first-occurrence
order (`df['TRACT'].unique()`). -/
def uniqueTracts (df : Df) : List String := uniqueList (df.map tractOf)

/-- The dataset's tracts sorted by the Tract Ordering Policy
(`sorted(df['TRACT'].unique(), key=tract_sort_key)`, app.py:540). -/
def sortedTracts (df : Df) : List String :=
  List.insertionSort tractLe (uniqueTracts df)

/-- Rows emitted on a tract-based category sheet: the category's rows less
the placeholder-owner rows (app.py:314-319).  The within-sheet grouping
and display order are presentation and are not modelled. -/
def tractSheetRows (df : Df) (code : String) : List Row :=
  (df.filter (fun r => isType r code)).filter (fun r => !ownerExcluded r)

/-- The per-tract `TRACT NRI` total of a tract-based category sheet
(app.py:411-417, 503): the sum over that tract's emitted rows. -/
def tractSheetTotal (df : Df) (code t : String) : ℚ :=
  (((tractSheetRows df code).filter (fun r => decide (tractOf r = t))).map trNRI).sum

/-- The per-tract MI control total (sum of `DECIMAL INTEREST`,
app.py:427-428, 499). -/
def tractSheetMITotal (df : Df) (t : String) : ℚ :=
  (((tractSheetRows df "MI").filter (fun r => decide (tractOf r = t))).map wiVal).sum

/-- The rows of one category and tract (`df[(df['TYPE'] == c) &
(df['TRACT'] == t)]`). -/
def catTractRows (df : Df) (code t : String) : List Row :=
  df.filter (fun r => isType r code && decide (tractOf r = t))

/-- The NPRI rows of one tract less `none.`/`none` owners, the row set of
the recap's NPRI column (app.py:542, 874). -/
def npriTractRows (df : Df) (t : String) : List Row :=
  df.filter (fun r => isType r "NPRI" && decide (tractOf r = t) &&
    !decide (ownerKey r ∈ (["none.", "none"] : List String)))

/-- One category column of the tract-based Unit Recap (app.py:541,
543-544): the sum of `TRACT NRI` over the tract's rows of that category,
with no owner filter. -/
def trRecapCat (df : Df) (code t : String) : ℚ :=
  ((catTractRows df code t).map trNRI).sum

/-- The NPRI column of the tract-based Unit Recap (app.py:542), which
alone drops owners equal to `none.`/`none` after lower-case and trim. -/
def trRecapNPRI (df : Df) (t : String) : ℚ :=
  ((npriTractRows df t).map trNRI).sum

/-- The `TOTAL NRI` cell of one tract's Unit Recap line (app.py:551). -/
def trRecapTractTotal (df : Df) (t : String) : ℚ :=
  trRecapCat df "MI" t + trRecapNPRI df t + trRecapCat df "ORI" t +
    trRecapCat df "WI" t

/-- The grand total of the tract-based Unit Recap (app.py:538-549, 566):
four per-category accumulators over the sorted tracts, then their sum. -/
def trGrand (df : Df) : ℚ :=
  ((sortedTracts df).map (trRecapCat df "MI")).sum +
    ((sortedTracts df).map (trRecapNPRI df)).sum +
    ((sortedTracts df).map (trRecapCat df "ORI")).sum +
    ((sortedTracts df).map (trRecapCat df "WI")).sum

/-- One entry of the allocation table (app.py:210-214). -/
structure AllocEntry where
  allocation : ℚ
  acres : ℚ
  legalDescription : String
deriving DecidableEq

/-- The allocation table: tract key to entry, in insertion order (a Python
dict). -/
abbrev AllocTable : Type := List (String × AllocEntry)

/-- The tract keys of the allocation table (`allocations.keys()`). -/
def allocKeys (al : AllocTable) : List String := al.map Prod.fst

/-- Model of `allocations.get(tract, {}).get('allocation', 0)`
(app.py:742, 823). -/
def allocOf (al : AllocTable) (t : String) : ℚ :=
  match dictGet al t with
  | some e => e.allocation
  | none => 0

/-- The ownership dataset filtered to tracts of the allocation table
(app.py:634-636). -/
def dfUnit (df : Df) (al : AllocTable) : Df :=
  df.filter (fun r => decide (tractOf r ∈ allocKeys al))

/-- The per-owner-group skip test of the unit-based sheets (app.py:709):
`pd.isna(owner) or str(owner).strip().lower() in ['none.', 'none', '']`. -/
def groupSkip (c : Cell) : Bool :=
  decide (c = Cell.na) ||
    decide (strLower (strTrim (pyStr c)) ∈ (["none.", "none", ""] : List String))

/-- Rows emitted on a unit-based category sheet (app.py:659-663, 708-712):
tract-filtered, then the category, less placeholder owners, less skipped
owner groups. -/
def unitSheetRows (df : Df) (al : AllocTable) (code : String) : List Row :=
  (((dfUnit df al).filter (fun r => isType r code)).filter
    (fun r => !ownerExcluded r)).filter (fun r => !groupSkip (ownerCell r))

/-- The `UNIT NRI` cell of an emitted unit-based data row (app.py:742-744):
`tract_nri * allocations.get(tract, {}).get('allocation', 0)`. -/
def unitNriOf (al : AllocTable) (r : Row) : ℚ := trNRI r * allocOf al (tractOf r)

/-- One owner's rows on a unit-based category sheet (`owner_data`,
app.py:712): the category's exclusion-filtered rows with that owner
cell. -/
def ownerRows (df : Df) (al : AllocTable) (code : String) (o : Cell) : List Row :=
  (((dfUnit df al).filter (fun r => isType r code)).filter
    (fun r => !ownerExcluded r)).filter (fun r => decide (ownerCell r = o))

/-- The `TOTAL` row value of one owner block on a unit-based category
sheet (app.py:822-825): the sum of `tract_nri × allocation` over the
owner's rows in the category. -/
def unitOwnerTotal (df : Df) (al : AllocTable) (code : String) (o : Cell) : ℚ :=
  ((ownerRows df al code o).map (fun r => trNRI r * allocOf al (tractOf r))).sum

/-- The allocation-table tracts sorted by the Tract Ordering Policy
(app.py:870). -/
def sortedAllocTracts (al : AllocTable) : List String :=
  List.insertionSort tractLe (allocKeys al)

/-- One category column of the unit-based Unit Recap (app.py:871-876):
the tract's category rows summed as `tract_nri × allocation`, no owner
filter. -/
def uRecapCat (df : Df) (al : AllocTable) (code t : String) : ℚ :=
  ((catTractRows (dfUnit df al) code t).map (fun r => trNRI r * allocOf al t)).sum

/-- The NPRI column of the unit-based Unit Recap (app.py:874), again
dropping only `none.`/`none` owners. -/
def uRecapNPRI (df : Df) (al : AllocTable) (t : String) : ℚ :=
  ((npriTractRows (dfUnit df al) t).map (fun r => trNRI r * allocOf al t)).sum

/-- The `TOTAL NRI` cell of one tract's unit-based Unit Recap line
(app.py:883). -/
def uRecapTractTotal (df : Df) (al : AllocTable) (t : String) : ℚ :=
  uRecapCat df al "MI" t + uRecapNPRI df al t + uRecapCat df al "ORI" t +
    uRecapCat df al "WI" t

/-- The grand `UNIT NRI TOTAL` of the unit-based report (app.py:868-898):
per-category accumulators over the sorted allocation tracts, then their
sum; this is the value returned to the caller (app.py:914). -/
def uGrand (df : Df) (al : AllocTable) : ℚ :=
  ((sortedAllocTracts al).map (uRecapCat df al "MI")).sum +
    ((sortedAllocTracts al).map (uRecapNPRI df al)).sum +
    ((sortedAllocTracts al).map (uRecapCat df al "ORI")).sum +
    ((sortedAllocTracts al).map (uRecapCat df al "WI")).sum

/-- The four interest categories with their sheet names (app.py:652-657). -/
def interestTypes : List (String × String) :=
  [("MI", "LORI"), ("NPRI", "NPRI"), ("ORI", "ORI"), ("WI", "WI")]

/-- The category sheets of the unit-based workbook: one sheet per category
whose exclusion-filtered row set is non-empty (app.py:659-668), carrying
its emitted rows. -/
def unitCatSheets (df : Df) (al : AllocTable) : List (String × List Row) :=
  (interestTypes.filter (fun p =>
    !(((dfUnit df al).filter (fun r => isType r p.1)).filter
      (fun r => !ownerExcluded r)).isEmpty)).map
    (fun p => (p.2, unitSheetRows df al p.1))

/-- One line of the unit-based Unit Recap sheet. -/
structure RecapLine where
  tract : String
  lori : ℚ
  npri : ℚ
  ori : ℚ
  wi : ℚ
  total : ℚ
deriving DecidableEq

/-- The Unit Recap lines of the unit-based workbook (app.py:867-895). -/
def unitRecapLines (df : Df) (al : AllocTable) : List RecapLine :=
  (sortedAllocTracts al).map (fun t =>
    { tract := t
      lori := uRecapCat df al "MI" t
      npri := uRecapNPRI df al t
      ori := uRecapCat df al "ORI" t
      wi := uRecapCat df al "WI" t
      total := uRecapTractTotal df al t })

/-- The logical unit-based workbook (presentation aside): the category
sheets and the Unit Recap. -/
structure UnitWorkbook where
  sheets : List (String × List Row)
  recap : List RecapLine
deriving DecidableEq

/-- Embedding of `create_unit_based_workbook` (app.py:585-914): builds the
workbook and returns it with the grand unit-NRI total. -/
def createUnitBasedWorkbook (df : Df) (al : AllocTable) : UnitWorkbook × ℚ :=
  (⟨unitCatSheets df al, unitRecapLines df al⟩, uGrand df al)

/-- The message shown after unit-based generation. -/
inductive GenMessage where
  | success : ℚ → GenMessage
  | warning : ℚ → GenMessage
deriving DecidableEq

/-- The observable outcome of the unit-based generation flow. -/
structure UnitOutcome where
  workbook : UnitWorkbook
  total : ℚ
  message : GenMessage
  downloadOffered : Bool
deriving DecidableEq

/-- Embedding of the unit-based branch of `main` (app.py:1057-1087): the
workbook is built, the grand total validated against `1.0` with tolerance
`1e-4`, a success or warning message (carrying the total) shown, and the
download offered in either case. -/
def runUnitFlow (df : Df) (al : AllocTable) : UnitOutcome :=
  let p := createUnitBasedWorkbook df al
  { workbook := p.1
    total := p.2
    message := if |p.2 - 1| < 1 / 10000 then .success p.2 else .warning p.2
    downloadOffered := true }

/-- Cell `i` of a schedule-sheet row (`row[i]`); out-of-range reads are
missing values. -/
def rowCell (row : List Cell) (i : ℕ) : Cell := row.getD i Cell.na

/-- The `Tract` marker-row test of the Allocation Loader (app.py:189-191):
first cell, trimmed and lower-cased, equals `"tract"`. -/
def isMarkerRow (row : List Cell) : Bool :=
  decide (strLower (strTrim (pyStr (rowCell row 0))) = "tract")

/-- Index of the first marker row (app.py:188-192). -/
def markerIdx (sched : List (List Cell)) : Option ℕ := sched.findIdx? isMarkerRow

/-- The region-terminator test (app.py:202): a missing tract cell or a
first cell reading `TOTAL UNIT ACRES` after trim and upper-case. -/
def isRegionEnd (row : List Cell) : Bool :=
  decide (rowCell row 0 = Cell.na) ||
    decide (strUpper (strTrim (pyStr (rowCell row 0))) = "TOTAL UNIT ACRES")

/-- The legal-description cell of an allocation row (app.py:209). -/
def legalOf (row : List Cell) : String :=
  if rowCell row 1 = Cell.na then "" else pyStr (rowCell row 1)

/-- Collect the allocation entries of the region rows (app.py:198-214):
stop at a terminator, skip rows whose normalized tract key is blank,
otherwise record (allocation, acres, legal description) under the key. -/
def collectAllocs : List (List Cell) → AllocTable → AllocTable
  | [], acc => acc
  | row :: rest, acc =>
    if isRegionEnd row then acc
    else
      let key := normalizeTract (rowCell row 0)
      if key = "" then collectAllocs rest acc
      else collectAllocs rest (updateDict acc key
        { allocation := safeFloat (rowCell row 3) 0
          acres := safeFloat (rowCell row 2) 0
          legalDescription := legalOf row })

/-- Embedding of `load_tract_allocations` (app.py:182-222) on the rows of
the `Tract List` sheet: fail without a marker row, fail when the region
yields no entries, succeed with the table otherwise. -/
def loadTractAllocations (sched : List (List Cell)) : Except String AllocTable :=
  match markerIdx sched with
  | none => .error "Could not find Tract allocation data in file"
  | some i =>
    if (collectAllocs (sched.drop (i + 1)) []).isEmpty
    then .error "No tract allocations found in file"
    else .ok (collectAllocs (sched.drop (i + 1)) [])

/-- Whether a region prefix contains at least one allocation row before
its terminator. -/
def regionHasEntry : List (List Cell) → Bool
  | [] => false
  | row :: rest =>
    if isRegionEnd row then false
    else if normalizeTract (rowCell row 0) = "" then regionHasEntry rest
    else true

/-- The seven-element example of the ordering claim, in its claimed
order. -/
def oramList : List String := ["1", "2", "10", "11", "Oram 1", "Oram 2", "Oram 10"]

/-! ### Concrete datasets used by witnesses and counterexamples -/

/-- An MI row whose owner is the placeholder `"None."`. -/
def rNone : Row := [("OWNER", Cell.str "None."), ("TYPE", Cell.str "MI"),
  ("TRACT", Cell.str "1"), ("TRACT NRI", Cell.num (mkRat 1 2))]

/-- A dataset holding only the placeholder-owner MI row. -/
def dfNone : Df := [rNone]

/-- An MI row with a real owner and `TRACT NRI` one. -/
def rOne : Row := [("OWNER", Cell.str "Alpha"), ("TYPE", Cell.str "MI"),
  ("TRACT", Cell.str "1"), ("TRACT NRI", Cell.num 1)]

/-- A dataset holding the single real-owner MI row. -/
def dfOne : Df := [rOne]

/-- An allocation table giving tract `1` the full unit. -/
def alOne : AllocTable := [("1", ⟨1, 0, ""⟩)]

/-- A WI row whose precomputed `TRACT NRI` (9/10) disagrees with its
displayed chain `(1 − 0 − 0) × 1/2`. -/
def rWi : Row := [("OWNER", Cell.str "Alpha"), ("TYPE", Cell.str "WI"),
  ("TRACT", Cell.str "1"), ("TRACT NRI", Cell.num (mkRat 9 10)),
  ("WI (TRACT)", Cell.num (mkRat 1 2))]

/-- A dataset holding the single WI row. -/
def dfWi : Df := [rWi]

/-- An MI row on lease `A` with royalty 1/8. -/
def rLeaseA : Row := [("OWNER", Cell.str "Alpha"), ("TYPE", Cell.str "MI"),
  ("TRACT", Cell.str "1"), ("LEASE NO.", Cell.str "A"),
  ("LEASE ROYALTY", Cell.num (mkRat 1 8))]

/-- An MI row whose lease string is literally `"default"`, royalty 1/4. -/
def rLeaseDef : Row := [("OWNER", Cell.str "Beta"), ("TYPE", Cell.str "MI"),
  ("TRACT", Cell.str "1"), ("LEASE NO.", Cell.str "default"),
  ("LEASE ROYALTY", Cell.num (mkRat 1 4))]

/-- An MI row on lease `B` with royalty 1/4. -/
def rLeaseB : Row := [("OWNER", Cell.str "Beta"), ("TYPE", Cell.str "MI"),
  ("TRACT", Cell.str "1"), ("LEASE NO.", Cell.str "B"),
  ("LEASE ROYALTY", Cell.num (mkRat 1 4))]

/-- Lease `A` then the literal `"default"` lease, same tract. -/
def dfLease : Df := [rLeaseA, rLeaseDef]

/-- Lease `A` alone. -/
def dfA : Df := [rLeaseA]

/-- Lease `A` then lease `B`, same tract, differing royalties. -/
def dfLease2 : Df := [rLeaseA, rLeaseB]

/-- An MI row of tract `1` with `TRACT NRI` 1/2. -/
def rT1 : Row := [("OWNER", Cell.str "Alpha"), ("TYPE", Cell.str "MI"),
  ("TRACT", Cell.str "1"), ("TRACT NRI", Cell.num (mkRat 1 2))]

/-- An MI row of tract `2` with `TRACT NRI` 1/2. -/
def rT2 : Row := [("OWNER", Cell.str "Alpha"), ("TYPE", Cell.str "MI"),
  ("TRACT", Cell.str "2"), ("TRACT NRI", Cell.num (mkRat 1 2))]

/-- A two-tract dataset whose tract-based grand NRI total is one. -/
def dfTwo : Df := [rT1, rT2]

/-- The allocation table for `dfTwo` with factors `1/N = 1/2` each. -/
def alHalf : AllocTable := [("1", ⟨mkRat 1 2, 0, ""⟩), ("2", ⟨mkRat 1 2, 0, ""⟩)]

/-- A well-formed schedule: a marker row, one allocation row, the
terminator. -/
def schedGood : List (List Cell) :=
  [[Cell.str "Unit WXY"], [Cell.str "Tract"],
   [Cell.str "1", Cell.str "NE/4", Cell.num 160, Cell.num 1],
   [Cell.str "Total Unit Acres"]]

/-- A schedule with no `Tract` marker row. -/
def schedNoMarker : List (List Cell) := [[Cell.str "Something"], [Cell.na]]

/-! ## Supporting lemmas -/

theorem dictGet_updateDict_ne {β : Type} (d : List (String × β)) (k : String) (v : β)
    (k' : String) (h : k' ≠ k) : dictGet (updateDict d k v) k' = dictGet d k' := by
  induction d with
  | nil => simp [updateDict, dictGet, h]
  | cons p d ih =>
    obtain ⟨k1, v1⟩ := p
    by_cases h1 : k1 = k
    · subst h1
      simp [updateDict, dictGet, h]
    · simp [updateDict, h1, dictGet, ih]

theorem loriStep_default_some (d : List (String × ℚ)) (r : Row) (v : ℚ)
    (h : dictGet d "default" = some v) (hr : leaseRaw r ≠ "default") :
    dictGet (loriStep d r) "default" = some v := by
  unfold loriStep
  by_cases hl : leaseRaw r = ""
  · simp [hl, h]
  · have h1 : dictGet (updateDict d (leaseRaw r) (leaseRoyaltyOf r)) "default" = some v := by
      rw [dictGet_updateDict_ne d _ _ _ (Ne.symm hr)]
      exact h
    simp [hl, h1]

theorem foldl_loriStep_default (l : List Row) (d : List (String × ℚ)) (v : ℚ)
    (h : dictGet d "default" = some v)
    (hl : ∀ r ∈ l, leaseRaw r ≠ "default") :
    dictGet (l.foldl loriStep d) "default" = some v := by
  induction l generalizing d with
  | nil => simpa using h
  | cons r l ih =>
    exact ih (loriStep d r) (loriStep_default_some d r v h (hl r (by simp)))
      (fun x hx => hl x (by simp [hx]))

theorem loriStep_nil_default (r : Row) :
    dictGet (loriStep [] r) "default" = some (leaseRoyaltyOf r) := by
  unfold loriStep
  by_cases hl : leaseRaw r = ""
  · simp [hl, dictGet]
  · by_cases hd : leaseRaw r = "default"
    · simp [hl, hd, updateDict, dictGet]
    · simp [hl, updateDict, dictGet, Ne.symm hd]

theorem buildLori_default (df : Df) (t : String) (r : Row) (l : List Row)
    (hc : miRows df t = r :: l)
    (hd : ∀ x ∈ l, leaseRaw x ≠ "default") :
    dictGet (buildLori df t) "default" = some (leaseRoyaltyOf r) := by
  unfold buildLori
  rw [hc, List.foldl_cons]
  exact foldl_loriStep_default l (loriStep [] r) _ (loriStep_nil_default r) hd

theorem resolveLori_of_no_mi (df : Df) (t lease : String) (h : miRows df t = []) :
    resolveLori df t lease = 0 := by
  unfold resolveLori buildLori
  rw [h]
  simp [dictGet]

theorem tenPow_pos (e : ℤ) : 0 < tenPow e := by
  unfold tenPow
  positivity

theorem cast_ipow10 (n : ℕ) : ((ipow10 n : ℤ) : ℚ) = tenPow (n : ℤ) := by
  unfold ipow10 tenPow
  push_cast
  rw [zpow_natCast]

theorem tenPow_split (x e : ℤ) (h : 0 ≤ x - e) :
    tenPow x = (ipow10 (x - e).toNat : ℚ) * tenPow e := by
  rw [cast_ipow10]
  unfold tenPow
  rw [← zpow_add₀ (by norm_num : (10:ℚ) ≠ 0)]
  congr 1
  omega

theorem numLE_iff (p q : ℤ × ℤ) : numLE p q = true ↔ decVal p ≤ decVal q := by
  unfold numLE decVal
  rw [decide_eq_true_iff]
  have ha : 0 ≤ p.2 - min p.2 q.2 := by omega
  have hb : 0 ≤ q.2 - min p.2 q.2 := by omega
  rw [tenPow_split p.2 (min p.2 q.2) ha, tenPow_split q.2 (min p.2 q.2) hb]
  rw [← mul_assoc, ← mul_assoc]
  rw [mul_le_mul_right (tenPow_pos _)]
  constructor
  · intro h
    exact_mod_cast h
  · intro h
    exact_mod_cast h

theorem chListLT_trans : ∀ a b c : List Char,
    chListLT a b = true → chListLT b c = true → chListLT a c = true := by
  intro a
  induction a with
  | nil =>
    intro b c hab hbc
    cases b with
    | nil => exact hbc
    | cons y ys =>
      cases c with
      | nil => simp [chListLT] at hbc
      | cons z zs => simp [chListLT]
  | cons x xs ih =>
    intro b c hab hbc
    cases b with
    | nil => simp [chListLT] at hab
    | cons y ys =>
      cases c with
      | nil => simp [chListLT] at hbc
      | cons z zs =>
        simp only [chListLT] at hab hbc ⊢
        rcases lt_trichotomy x y with hxy | hxy | hxy
        · rcases lt_trichotomy y z with hyz | hyz | hyz
          · rw [if_pos (lt_trans hxy hyz)]
          · subst hyz
            rw [if_pos hxy]
          · rw [if_neg (asymm hyz), if_neg (ne_of_gt hyz)] at hbc
            exact absurd hbc (by simp)
        · subst hxy
          rw [if_neg (lt_irrefl x), if_pos rfl] at hab
          rcases lt_trichotomy x z with hyz | hyz | hyz
          · rw [if_pos hyz]
          · subst hyz
            rw [if_neg (lt_irrefl x), if_pos rfl] at hbc ⊢
            exact ih ys zs hab hbc
          · rw [if_neg (asymm hyz), if_neg (ne_of_gt hyz)] at hbc
            exact absurd hbc (by simp)
        · rw [if_neg (asymm hxy), if_neg (ne_of_gt hxy)] at hab
          exact absurd hab (by simp)

theorem chListLT_total : ∀ a b : List Char,
    chListLT a b = true ∨ a = b ∨ chListLT b a = true := by
  intro a
  induction a with
  | nil =>
    intro b
    cases b with
    | nil => simp
    | cons y ys => simp [chListLT]
  | cons x xs ih =>
    intro b
    cases b with
    | nil => simp [chListLT]
    | cons y ys =>
      rcases lt_trichotomy x y with h | h | h
      · left
        simp [chListLT, h]
      · subst h
        rcases ih ys with h2 | h2 | h2
        · left
          simp [chListLT, h2]
        · right
          left
          rw [h2]
        · right
          right
          simp [chListLT, h2]
      · right
        right
        simp [chListLT, h]

theorem chListLT_asymm : ∀ a b : List Char,
    chListLT a b = true → chListLT b a = true → False := by
  intro a
  induction a with
  | nil =>
    intro b hab hba
    cases b with
    | nil => simp [chListLT] at hab
    | cons y ys => simp [chListLT] at hba
  | cons x xs ih =>
    intro b hab hba
    cases b with
    | nil => simp [chListLT] at hab
    | cons y ys =>
      simp only [chListLT] at hab hba
      rcases lt_trichotomy x y with h | h | h
      · rw [if_neg (asymm h), if_neg (ne_of_gt h)] at hba
        exact absurd hba (by simp)
      · subst h
        rw [if_neg (lt_irrefl x), if_pos rfl] at hab hba
        exact ih ys hab hba
      · rw [if_neg (asymm h), if_neg (ne_of_gt h)] at hab
        exact absurd hab (by simp)

theorem keyLE_total : ∀ x y : Sum (ℤ × ℤ) (List Char × ℕ),
    keyLE x y = true ∨ keyLE y x = true := by
  intro x y
  cases x with
  | inl p =>
    cases y with
    | inl q =>
      rcases le_total (decVal p) (decVal q) with h | h
      · exact Or.inl ((numLE_iff p q).mpr h)
      · exact Or.inr ((numLE_iff q p).mpr h)
    | inr b => exact Or.inl rfl
  | inr a =>
    cases y with
    | inl q => exact Or.inr rfl
    | inr b =>
      rcases chListLT_total a.1 b.1 with h | h | h
      · left
        simp [keyLE, h]
      · rcases le_total a.2 b.2 with h2 | h2
        · left
          simp [keyLE, h, h2]
        · right
          simp [keyLE, h.symm, h2]
      · right
        simp [keyLE, h]

theorem keyLE_trans : ∀ x y z : Sum (ℤ × ℤ) (List Char × ℕ),
    keyLE x y = true → keyLE y z = true → keyLE x z = true := by
  intro x y z hxy hyz
  cases x with
  | inl p =>
    cases z with
    | inl s =>
      cases y with
      | inl q =>
        exact (numLE_iff p s).mpr
          (le_trans ((numLE_iff p q).mp hxy) ((numLE_iff q s).mp hyz))
      | inr b => exact absurd hyz (by simp [keyLE])
    | inr c => rfl
  | inr a =>
    cases y with
    | inl q => exact absurd hxy (by simp [keyLE])
    | inr b =>
      cases z with
      | inl s => exact absurd hyz (by simp [keyLE])
      | inr c =>
        simp only [keyLE, Bool.or_eq_true, Bool.and_eq_true, decide_eq_true_eq] at hxy hyz ⊢
        rcases hxy with h1 | ⟨h1, h1n⟩
        · rcases hyz with h2 | ⟨h2, h2n⟩
          · exact Or.inl (chListLT_trans _ _ _ h1 h2)
          · exact Or.inl (h2 ▸ h1)
        · rcases hyz with h2 | ⟨h2, h2n⟩
          · exact Or.inl (h1 ▸ h2)
          · exact Or.inr ⟨h1.trans h2, le_trans h1n h2n⟩

instance : IsTotal String tractLe :=
  ⟨fun a b => keyLE_total (tractKey a) (tractKey b)⟩

instance : IsTrans String tractLe :=
  ⟨fun a b c => keyLE_trans (tractKey a) (tractKey b) (tractKey c)⟩

/-- A list sorted by the tract ordering that is a permutation of a
strictly increasing list equals it. -/
theorem perm_sorted_strict_eq : ∀ l₂ l₁ : List String, l₁.Perm l₂ →
    l₁.Sorted tractLe → l₂.Pairwise (fun a b => tractLeB b a = false) →
    l₁ = l₂ := by
  intro l₂
  induction l₂ with
  | nil =>
    intro l₁ hp _ _
    exact hp.eq_nil
  | cons b t₂ ih =>
    intro l₁ hp hs hst
    cases l₁ with
    | nil => exact absurd hp.symm.eq_nil (by simp)
    | cons a t₁ =>
      rw [List.sorted_cons] at hs
      rw [List.pairwise_cons] at hst
      have hab : a = b := by
        by_contra hne
        have hbmem : b ∈ a :: t₁ := hp.symm.subset (List.mem_cons_self b t₂)
        have hamem : a ∈ b :: t₂ := hp.subset (List.mem_cons_self a t₁)
        have hb1 : b ∈ t₁ := by
          rcases List.mem_cons.mp hbmem with h | h
          · exact absurd h.symm hne
          · exact h
        have ha2 : a ∈ t₂ := by
          rcases List.mem_cons.mp hamem with h | h
          · exact absurd h hne
          · exact h
        have hle : tractLe a b := hs.1 b hb1
        have hnle : tractLeB a b = false := hst.1 a ha2
        rw [tractLe] at hle
        rw [hle] at hnle
        exact absurd hnle (by simp)
      subst hab
      have hp2 : t₁.Perm t₂ := hp.cons_inv
      rw [ih t₁ hp2 hs.2 hst.2]

theorem sort_perm_oram (l : List String) (h : l.Perm oramList) :
    List.insertionSort tractLe l = oramList := by
  have hs : (List.insertionSort tractLe l).Sorted tractLe :=
    List.sorted_insertionSort tractLe l
  have hp : (List.insertionSort tractLe l).Perm oramList :=
    (List.perm_insertionSort tractLe l).trans h
  exact perm_sorted_strict_eq oramList _ hp hs (by decide)


theorem mem_uniqueAux {α : Type} [DecidableEq α] :
    ∀ (l : List α) (seen : List α) (a : α),
    a ∈ uniqueAux seen l ↔ a ∈ l ∧ a ∉ seen := by
  intro l
  induction l with
  | nil => simp [uniqueAux]
  | cons x xs ih =>
    intro seen a
    by_cases hx : x ∈ seen
    · rw [uniqueAux, if_pos hx, ih]
      constructor
      · exact fun ⟨h1, h2⟩ => ⟨List.mem_cons_of_mem x h1, h2⟩
      · rintro ⟨h1, h2⟩
        rcases List.mem_cons.mp h1 with rfl | h1
        · exact absurd hx h2
        · exact ⟨h1, h2⟩
    · rw [uniqueAux, if_neg hx]
      constructor
      · intro h
        rcases List.mem_cons.mp h with rfl | h
        · exact ⟨List.mem_cons_self a xs, hx⟩
        · have := (ih (x :: seen) a).mp h
          refine ⟨List.mem_cons_of_mem x this.1, fun hs => this.2 (List.mem_cons_of_mem x hs)⟩
      · rintro ⟨h1, h2⟩
        rcases List.mem_cons.mp h1 with rfl | h1
        · exact List.mem_cons_self a _
        · by_cases hax : a = x
          · subst hax
            exact List.mem_cons_self a _
          · exact List.mem_cons_of_mem x ((ih (x :: seen) a).mpr
              ⟨h1, fun hs => (List.mem_cons.mp hs).elim hax h2⟩)

theorem nodup_uniqueAux {α : Type} [DecidableEq α] :
    ∀ (l : List α) (seen : List α), (uniqueAux seen l).Nodup := by
  intro l
  induction l with
  | nil => simp [uniqueAux]
  | cons x xs ih =>
    intro seen
    by_cases hx : x ∈ seen
    · rw [uniqueAux, if_pos hx]
      exact ih seen
    · rw [uniqueAux, if_neg hx]
      refine List.nodup_cons.mpr ⟨fun hmem => ?_, ih (x :: seen)⟩
      exact ((mem_uniqueAux xs (x :: seen) x).mp hmem).2 (List.mem_cons_self x seen)

theorem mem_uniqueList {α : Type} [DecidableEq α] (l : List α) (a : α) :
    a ∈ uniqueList l ↔ a ∈ l := by
  rw [uniqueList, mem_uniqueAux]
  simp

theorem nodup_uniqueList {α : Type} [DecidableEq α] (l : List α) :
    (uniqueList l).Nodup := nodup_uniqueAux l []

theorem mem_map_tractOf (df : Df) (r : Row) (h : r ∈ df) :
    tractOf r ∈ uniqueTracts df := by
  rw [uniqueTracts, mem_uniqueList]
  exact List.mem_map_of_mem tractOf h

theorem dictGet_of_mem_keys {β : Type} :
    ∀ (d : List (String × β)) (t : String), t ∈ d.map Prod.fst →
    ∃ e, dictGet d t = some e := by
  intro d
  induction d with
  | nil => simp
  | cons p d ih =>
    obtain ⟨k, v⟩ := p
    intro t ht
    by_cases h : t = k
    · exact ⟨v, by simp [dictGet, h]⟩
    · simp only [List.map_cons, List.mem_cons] at ht
      rcases ht with ht | ht
      · exact absurd ht h
      · obtain ⟨e, he⟩ := ih t ht
        exact ⟨e, by simp [dictGet, h, he]⟩

theorem mem_of_dictGet {β : Type} :
    ∀ (d : List (String × β)) (t : String) (e : β), dictGet d t = some e →
    (t, e) ∈ d := by
  intro d
  induction d with
  | nil => simp [dictGet]
  | cons p d ih =>
    obtain ⟨k, v⟩ := p
    intro t e h
    by_cases ht : t = k
    · simp only [dictGet, if_pos ht] at h
      rw [List.mem_cons]
      left
      rw [ht, Option.some_inj.mp h]
    · simp only [dictGet, if_neg ht] at h
      exact List.mem_cons_of_mem _ (ih t e h)

theorem sortedAlloc_perm_sortedTracts (df : Df) (al : AllocTable)
    (hnd : (allocKeys al).Nodup)
    (hmem : ∀ t, t ∈ allocKeys al ↔ t ∈ uniqueTracts df) :
    (sortedAllocTracts al).Perm (sortedTracts df) := by
  have h1 : (sortedAllocTracts al).Perm (allocKeys al) :=
    List.perm_insertionSort tractLe _
  have h2 : (sortedTracts df).Perm (uniqueTracts df) :=
    List.perm_insertionSort tractLe _
  have h3 : (allocKeys al).Perm (uniqueTracts df) :=
    (List.perm_ext_iff_of_nodup hnd (nodup_uniqueList _)).mpr hmem
  exact h1.trans (h3.trans h2.symm)

theorem col_sum_eq (df : Df) (al : AllocTable) (g : Df → String → List Row) (n : ℚ)
    (hdf : dfUnit df al = df)
    (hperm : (sortedAllocTracts al).Perm (sortedTracts df))
    (hN : ∀ t ∈ allocKeys al, allocOf al t = n) :
    ((sortedAllocTracts al).map
      (fun t => ((g (dfUnit df al) t).map (fun r => trNRI r * allocOf al t)).sum)).sum
    = n * ((sortedTracts df).map (fun t => ((g df t).map trNRI).sum)).sum := by
  rw [hdf]
  have step1 : ((sortedAllocTracts al).map
      (fun t => ((g df t).map (fun r => trNRI r * allocOf al t)).sum)).sum
      = ((sortedAllocTracts al).map (fun t => ((g df t).map trNRI).sum * n)).sum := by
    congr 1
    apply List.map_congr_left
    intro t ht
    have htk : t ∈ allocKeys al := by
      rw [sortedAllocTracts, List.mem_insertionSort] at ht
      exact ht
    rw [hN t htk]
    exact List.sum_map_mul_right _ trNRI n
  rw [step1, List.sum_map_mul_right _ _ n]
  rw [(hperm.map _).sum_eq]
  exact mul_comm _ n


theorem filter_filter_comm {α : Type} (l : List α) (p q : α → Bool) :
    (l.filter p).filter q = (l.filter q).filter p := by
  simp [List.filter_filter, Bool.and_comm]

theorem filter_idem {α : Type} (l : List α) (p : α → Bool) :
    (l.filter p).filter p = l.filter p :=
  List.filter_eq_self.mpr (fun _ ha => (List.mem_filter.mp ha).2)

theorem filter_absorb {α : Type} (l : List α) (p q : α → Bool)
    (h : ∀ a, p a = true → q a = true) :
    (l.filter p).filter q = l.filter p :=
  List.filter_eq_self.mpr (fun a ha => h a (List.mem_filter.mp ha).2)

theorem tractSheetRows_drop_excluded (df : Df) (code : String) :
    tractSheetRows (df.filter (fun r => !ownerExcluded r)) code
      = tractSheetRows df code := by
  rw [tractSheetRows, tractSheetRows]
  rw [filter_filter_comm df (fun r => !ownerExcluded r) (fun r => isType r code)]
  rw [filter_idem]

theorem ownerRows_drop_excluded (df : Df) (al : AllocTable) (code : String) (o : Cell) :
    ownerRows (df.filter (fun r => !ownerExcluded r)) al code o
      = ownerRows df al code o := by
  rw [ownerRows, ownerRows, dfUnit, dfUnit]
  rw [filter_filter_comm df (fun r => !ownerExcluded r)
    (fun r => decide (tractOf r ∈ allocKeys al))]
  rw [filter_filter_comm (df.filter (fun r => decide (tractOf r ∈ allocKeys al)))
    (fun r => !ownerExcluded r) (fun r => isType r code)]
  rw [filter_idem]

theorem updateDict_ne_nil {β : Type} (d : List (String × β)) (k : String) (v : β) :
    updateDict d k v ≠ [] := by
  cases d with
  | nil => simp [updateDict]
  | cons p d =>
    obtain ⟨k1, v1⟩ := p
    by_cases h : k1 = k
    · simp [updateDict, h]
    · simp [updateDict, h]

theorem collectAllocs_ne_nil : ∀ (rows : List (List Cell)) (acc : AllocTable),
    collectAllocs rows acc ≠ [] ↔ (regionHasEntry rows = true ∨ acc ≠ []) := by
  intro rows
  induction rows with
  | nil =>
    intro acc
    simp [collectAllocs, regionHasEntry]
  | cons row rest ih =>
    intro acc
    by_cases hend : isRegionEnd row = true
    · rw [collectAllocs, if_pos hend, regionHasEntry, if_pos hend]
      simp
    · by_cases hkey : normalizeTract (rowCell row 0) = ""
      · rw [collectAllocs, if_neg hend, if_pos hkey,
            regionHasEntry, if_neg hend, if_pos hkey]
        exact ih acc
      · rw [collectAllocs, if_neg hend, if_neg hkey,
            regionHasEntry, if_neg hend, if_neg hkey]
        constructor
        · intro _
          exact Or.inl rfl
        · intro _
          exact (ih _).mpr (Or.inr (updateDict_ne_nil _ _ _))

/-! ## Claims -/

/-- C1: when the unit-based report is generated, the grand unit-NRI total
(the sum over every tract of the allocation table, across the four
categories, of `tract_nri × allocation`) is computed and returned; the
workbook is produced and the download offered regardless of validation;
within tolerance `1e-4` of `1.0` a success message carrying the total is
shown, otherwise a warning carrying the total — generation never fails on
a violated invariant. -/
theorem claim1_unit_total_nonfatal (df : Df) (al : AllocTable) :
    (runUnitFlow df al).total = ((sortedAllocTracts al).map (uRecapTractTotal df al)).sum
    ∧ (runUnitFlow df al).workbook = (createUnitBasedWorkbook df al).1
    ∧ (runUnitFlow df al).downloadOffered = true
    ∧ (|(runUnitFlow df al).total - 1| < 1 / 10000 →
        (runUnitFlow df al).message = GenMessage.success ((runUnitFlow df al).total))
    ∧ (¬ |(runUnitFlow df al).total - 1| < 1 / 10000 →
        (runUnitFlow df al).message = GenMessage.warning ((runUnitFlow df al).total)) := by
  refine ⟨?_, rfl, rfl, ?_, ?_⟩
  · show uGrand df al = _
    have he : (sortedAllocTracts al).map (uRecapTractTotal df al)
        = (sortedAllocTracts al).map (fun t => uRecapCat df al "MI" t +
            uRecapNPRI df al t + uRecapCat df al "ORI" t + uRecapCat df al "WI" t) := rfl
    rw [he, List.sum_map_add, List.sum_map_add, List.sum_map_add]
    rfl
  · intro h
    have h2 : |uGrand df al - 1| < 1 / 10000 := h
    show (if |uGrand df al - 1| < 1 / 10000 then GenMessage.success (uGrand df al)
      else GenMessage.warning (uGrand df al)) = _
    rw [if_pos h2]
    rfl
  · intro h
    have h2 : ¬ |uGrand df al - 1| < 1 / 10000 := h
    show (if |uGrand df al - 1| < 1 / 10000 then GenMessage.success (uGrand df al)
      else GenMessage.warning (uGrand df al)) = _
    rw [if_neg h2]
    rfl

/-- Witness for C1: a dataset whose grand total is exactly one takes the
success branch; one whose total is one half takes the warning branch. -/
theorem claim1_unit_total_nonfatal_witness :
    (runUnitFlow dfOne alOne).message = GenMessage.success ((runUnitFlow dfOne alOne).total)
    ∧ (runUnitFlow dfNone alOne).message =
        GenMessage.warning ((runUnitFlow dfNone alOne).total) := by
  have ht1 : uGrand dfOne alOne = 1 := by
    have h1 : sortedAllocTracts alOne = ["1"] := by decide
    have h2 : catTractRows (dfUnit dfOne alOne) "MI" "1" = [rOne] := by decide
    have h3 : catTractRows (dfUnit dfOne alOne) "ORI" "1" = [] := by decide
    have h4 : catTractRows (dfUnit dfOne alOne) "WI" "1" = [] := by decide
    have h5 : npriTractRows (dfUnit dfOne alOne) "1" = [] := by decide
    have h6 : trNRI rOne = 1 := by decide
    have h7 : allocOf alOne "1" = 1 := by decide
    rw [uGrand, h1]
    simp [uRecapCat, uRecapNPRI, h2, h3, h4, h5, h6, h7]
  have ht2 : uGrand dfNone alOne = 1 / 2 := by
    have h1 : sortedAllocTracts alOne = ["1"] := by decide
    have h2 : catTractRows (dfUnit dfNone alOne) "MI" "1" = [rNone] := by decide
    have h3 : catTractRows (dfUnit dfNone alOne) "ORI" "1" = [] := by decide
    have h4 : catTractRows (dfUnit dfNone alOne) "WI" "1" = [] := by decide
    have h5 : npriTractRows (dfUnit dfNone alOne) "1" = [] := by decide
    have h6 : trNRI rNone = mkRat 1 2 := by decide
    have h7 : allocOf alOne "1" = 1 := by decide
    rw [uGrand, h1]
    simp [uRecapCat, uRecapNPRI, h2, h3, h4, h5, h6, h7]
    norm_num [Rat.mkRat_eq_div]
  refine ⟨(claim1_unit_total_nonfatal dfOne alOne).2.2.2.1 ?_,
    (claim1_unit_total_nonfatal dfNone alOne).2.2.2.2 ?_⟩
  · show |uGrand dfOne alOne - 1| < 1 / 10000
    rw [ht1]
    norm_num
  · show ¬ |uGrand dfNone alOne - 1| < 1 / 10000
    rw [ht2, show (1 / 2 : ℚ) - 1 = -(1 / 2) by norm_num, abs_neg,
      abs_of_pos (by norm_num : (0 : ℚ) < 1 / 2)]
    norm_num

/-- C2 counterexample: the dataset `dfNone` holds a single MI row whose
owner is the placeholder `"None."`.  The row appears on no category sheet,
yet the Unit Recap of the tract-based report counts its `TRACT NRI` in
both the per-tract MI column and the grand total (`1/2`, not the `0` the
claim requires), and the unit-based Unit Recap does the same. -/
theorem claim2_exclusion_counterexample :
    ownerExcluded rNone = true
    ∧ tractSheetRows dfNone "MI" = []
    ∧ trRecapCat dfNone "MI" "1" = 1 / 2
    ∧ trGrand dfNone = 1 / 2
    ∧ trGrand (dfNone.filter (fun r => !ownerExcluded r)) = 0
    ∧ uGrand dfNone alOne = 1 / 2
    ∧ (1 / 2 : ℚ) ≠ 0 := by
  have h1 : sortedTracts dfNone = ["1"] := by decide
  have h2 : catTractRows dfNone "MI" "1" = [rNone] := by decide
  have h3 : catTractRows dfNone "ORI" "1" = [] := by decide
  have h4 : catTractRows dfNone "WI" "1" = [] := by decide
  have h5 : npriTractRows dfNone "1" = [] := by decide
  have h6 : trNRI rNone = mkRat 1 2 := by decide
  refine ⟨by decide, by decide, ?_, ?_, ?_, ?_, by norm_num⟩
  · rw [trRecapCat, h2]
    simp [h6]
    norm_num [Rat.mkRat_eq_div]
  · rw [trGrand, h1]
    simp [trRecapCat, trRecapNPRI, h2, h3, h4, h5, h6]
    norm_num [Rat.mkRat_eq_div]
  · have h0 : dfNone.filter (fun r => !ownerExcluded r) = [] := by decide
    rw [h0]
    have h1e : sortedTracts ([] : Df) = [] := by decide
    rw [trGrand, h1e]
    simp
  · have k1 : sortedAllocTracts alOne = ["1"] := by decide
    have k2 : catTractRows (dfUnit dfNone alOne) "MI" "1" = [rNone] := by decide
    have k3 : catTractRows (dfUnit dfNone alOne) "ORI" "1" = [] := by decide
    have k4 : catTractRows (dfUnit dfNone alOne) "WI" "1" = [] := by decide
    have k5 : npriTractRows (dfUnit dfNone alOne) "1" = [] := by decide
    have k7 : allocOf alOne "1" = 1 := by decide
    rw [uGrand, k1]
    simp [uRecapCat, uRecapNPRI, k2, k3, k4, k5, h6, k7]
    norm_num [Rat.mkRat_eq_div]

/-- C2 as amended: excluded-owner rows appear on no category sheet of
either report and contribute to no category-sheet total (per-tract or
per-owner), but they are not excluded from the Unit Recap: only the
recap's NPRI column filters owners, and only those reading `none.`/`none`
after lower-case and trim. -/
theorem claim2_exclusion_amended (df : Df) :
    (∀ code r, r ∈ tractSheetRows df code → ownerExcluded r = false)
    ∧ (∀ (al : AllocTable) code r, r ∈ unitSheetRows df al code → ownerExcluded r = false)
    ∧ (∀ code t, tractSheetTotal (df.filter (fun r => !ownerExcluded r)) code t
        = tractSheetTotal df code t)
    ∧ (∀ (al : AllocTable) code o,
        unitOwnerTotal (df.filter (fun r => !ownerExcluded r)) al code o
          = unitOwnerTotal df al code o)
    ∧ (∀ t, trRecapNPRI (df.filter (fun r =>
        !decide (ownerKey r ∈ (["none.", "none"] : List String)))) t
        = trRecapNPRI df t) := by
  refine ⟨?_, ?_, ?_, ?_, ?_⟩
  · intro code r hr
    have h := (List.mem_filter.mp hr).2
    rwa [Bool.not_eq_true'] at h
  · intro al code r hr
    rw [unitSheetRows] at hr
    have h1 := (List.mem_filter.mp hr).1
    have h := (List.mem_filter.mp h1).2
    rwa [Bool.not_eq_true'] at h
  · intro code t
    rw [tractSheetTotal, tractSheetTotal, tractSheetRows_drop_excluded]
  · intro al code o
    rw [unitOwnerTotal, unitOwnerTotal, ownerRows_drop_excluded]
  · intro t
    rw [trRecapNPRI, trRecapNPRI]
    congr 1
    congr 1
    rw [npriTractRows, npriTractRows]
    rw [filter_filter_comm]
    apply filter_absorb
    intro r hr
    rw [Bool.and_eq_true, Bool.and_eq_true] at hr
    exact hr.2

/-- Witness for the amended C2, at a concrete emitted row and concrete
totals. -/
theorem claim2_exclusion_amended_witness :
    ownerExcluded rOne = false
    ∧ tractSheetTotal (dfNone.filter (fun r => !ownerExcluded r)) "MI" "1"
        = tractSheetTotal dfNone "MI" "1" :=
  ⟨(claim2_exclusion_amended dfOne).1 "MI" rOne (by decide),
    (claim2_exclusion_amended dfNone).2.2.1 "MI" "1"⟩

/-- C3: in the unit-based report, a row whose tract is absent from the
allocation table appears on no category sheet; every emitted row's
`UNIT NRI` equals `tract_nri × allocation[tract]` with the allocation
taken from the table entry of its tract; and each owner's `TOTAL` row
equals the sum of the `UNIT NRI` values of that owner's rows of the
category. -/
theorem claim3_unit_projection (df : Df) (al : AllocTable) :
    (∀ code r, r ∈ df → tractOf r ∉ allocKeys al → r ∉ unitSheetRows df al code)
    ∧ (∀ code r, r ∈ unitSheetRows df al code →
        ∃ e, dictGet al (tractOf r) = some e ∧ unitNriOf al r = trNRI r * e.allocation)
    ∧ (∀ code o, unitOwnerTotal df al code o =
        ((ownerRows df al code o).map (fun r => unitNriOf al r)).sum) := by
  refine ⟨?_, ?_, fun code o => rfl⟩
  · intro code r _ hnk hmem
    rw [unitSheetRows] at hmem
    have h1 := (List.mem_filter.mp hmem).1
    have h2 := (List.mem_filter.mp h1).1
    have h3 := (List.mem_filter.mp h2).1
    rw [dfUnit] at h3
    have h4 := (List.mem_filter.mp h3).2
    rw [decide_eq_true_iff] at h4
    exact hnk h4
  · intro code r hmem
    rw [unitSheetRows] at hmem
    have h1 := (List.mem_filter.mp hmem).1
    have h2 := (List.mem_filter.mp h1).1
    have h3 := (List.mem_filter.mp h2).1
    rw [dfUnit] at h3
    have h4 := (List.mem_filter.mp h3).2
    rw [decide_eq_true_iff] at h4
    obtain ⟨e, he⟩ := dictGet_of_mem_keys al (tractOf r) h4
    refine ⟨e, he, ?_⟩
    rw [unitNriOf, allocOf, he]

/-- Witness for C3: the single-row dataset against an empty table (the
row is dropped) and against its own table (the row's unit value and the
owner total). -/
theorem claim3_unit_projection_witness :
    rOne ∉ unitSheetRows dfOne [] "MI"
    ∧ (∃ e, dictGet alOne (tractOf rOne) = some e ∧
        unitNriOf alOne rOne = trNRI rOne * e.allocation)
    ∧ unitOwnerTotal dfOne alOne "MI" (Cell.str "Alpha") =
        ((ownerRows dfOne alOne "MI" (Cell.str "Alpha")).map
          (fun r => unitNriOf alOne r)).sum :=
  ⟨(claim3_unit_projection dfOne []).1 "MI" rOne (by decide) (by decide),
    (claim3_unit_projection dfOne alOne).2.1 "MI" rOne (by decide),
    (claim3_unit_projection dfOne alOne).2.2 "MI" (Cell.str "Alpha")⟩

/-- C4 counterexample: the WI row `rWi` is emitted on the tract-based WI
sheet; its `TRACT NRI` cell shows the precomputed input value `9/10`,
while the displayed chain `(1 − lori − ori_burdens) × wi_tract` evaluates
to `1/2` — the cell is not the chain's product, so the claimed equality
fails. -/
theorem claim4_wi_chain_counterexample :
    rWi ∈ tractSheetRows dfWi "WI"
    ∧ (wiRowValues dfWi rWi).tractNri = 9 / 10
    ∧ (1 - (wiRowValues dfWi rWi).lori - (wiRowValues dfWi rWi).oriBurdens) *
        (wiRowValues dfWi rWi).wiTract = 1 / 2
    ∧ (9 / 10 : ℚ) ≠ 1 / 2 := by
  have hl : (wiRowValues dfWi rWi).lori = 0 := by decide
  have ho : (wiRowValues dfWi rWi).oriBurdens = 0 := by decide
  have hw : (wiRowValues dfWi rWi).wiTract = mkRat 1 2 := by decide
  have ht : (wiRowValues dfWi rWi).tractNri = mkRat 9 10 := by decide
  refine ⟨by decide, ?_, ?_, by norm_num⟩
  · rw [ht]
    norm_num [Rat.mkRat_eq_div]
  · rw [hl, ho, hw]
    norm_num [Rat.mkRat_eq_div]

/-- C4 as amended: for every emitted tract-based WI row, the `TRACT NRI`
cell equals the row's precomputed `TRACT NRI` input (defaulted to 0); the
`LORI` cell is resolved via the Burden Resolver keyed by (tract,
lease number) with fallback to the tract default, the `ORI BURDENS` cell
is the row's value defaulted to 0, and the `WI (TRACT)` cell defaults to
the row's `DECIMAL INTEREST`.  The chain's product is displayed but never
recomputed into the `TRACT NRI` cell. -/
theorem claim4_wi_cells_amended (df : Df) (r : Row)
    (_hr : r ∈ tractSheetRows df "WI") :
    (wiRowValues df r).tractNri = safeFloat (rowGet r "TRACT NRI" (Cell.num 0)) 0
    ∧ (wiRowValues df r).lori = resolveLori df (tractOf r) (leaseNoOf r)
    ∧ (wiRowValues df r).oriBurdens = safeFloat (rowGet r "ORI BURDENS" (Cell.num 0)) 0
    ∧ (wiRowValues df r).wiTract =
        safeFloat (rowGet r "WI (TRACT)" (Cell.num (wiVal r))) 0 :=
  ⟨rfl, rfl, rfl, rfl⟩

/-- Witness for the amended C4 at the concrete emitted WI row. -/
theorem claim4_wi_cells_amended_witness :
    (wiRowValues dfWi rWi).tractNri = safeFloat (rowGet rWi "TRACT NRI" (Cell.num 0)) 0
    ∧ (wiRowValues dfWi rWi).lori = resolveLori dfWi (tractOf rWi) (leaseNoOf rWi)
    ∧ (wiRowValues dfWi rWi).oriBurdens =
        safeFloat (rowGet rWi "ORI BURDENS" (Cell.num 0)) 0
    ∧ (wiRowValues dfWi rWi).wiTract =
        safeFloat (rowGet rWi "WI (TRACT)" (Cell.num (wiVal rWi))) 0 :=
  claim4_wi_cells_amended dfWi rWi (by decide)

/-- C5 counterexample: on tract `1` the MI rows are lease `A` (royalty
`1/8`, processed first) and a row whose lease string is literally
`"default"` (royalty `1/4`).  The dict assignment for that lease
overwrites the resolver's fallback entry, so `default` ends at `1/4`,
not the first row's `1/8` — the claim fails as stated. -/
theorem claim5_default_counterexample :
    miRows dfLease "1" = [rLeaseA, rLeaseDef]
    ∧ leaseRoyaltyOf rLeaseA = 1 / 8
    ∧ dictGet (buildLori dfLease "1") "default" = some (1 / 4)
    ∧ (1 / 4 : ℚ) ≠ 1 / 8 := by
  have h1 : miRows dfLease "1" = [rLeaseA, rLeaseDef] := by decide
  have h2 : leaseRoyaltyOf rLeaseA = mkRat 1 8 := by decide
  have h3 : dictGet (buildLori dfLease "1") "default" = some (mkRat 1 4) := by decide
  have e4 : (mkRat 1 4 : ℚ) = 1 / 4 := by norm_num [Rat.mkRat_eq_div]
  have e8 : (mkRat 1 8 : ℚ) = 1 / 8 := by norm_num [Rat.mkRat_eq_div]
  refine ⟨h1, by rw [h2, e8], by rw [h3, e4], by norm_num⟩

/-- C5 as amended: provided no later MI row of the tract carries the
literal lease string `"default"`, the resolver's fallback entry equals
the `LEASE ROYALTY` of the first MI row processed for the tract
(first-encountered order), and a lease number matching no entry resolves
to that first-seen rate. -/
theorem claim5_default_first_amended (df : Df) (t : String) (r : Row) (l : List Row)
    (hc : miRows df t = r :: l)
    (hd : ∀ x ∈ l, leaseRaw x ≠ "default") :
    dictGet (buildLori df t) "default" = some (leaseRoyaltyOf r)
    ∧ ∀ lease, dictGet (buildLori df t) lease = none →
        resolveLori df t lease = leaseRoyaltyOf r := by
  have h1 := buildLori_default df t r l hc hd
  refine ⟨h1, fun lease hl => ?_⟩
  rw [resolveLori, hl, h1]
  rfl

/-- Witness for the amended C5: one MI row on lease `A`; an unmatched
lease resolves to its rate. -/
theorem claim5_default_first_amended_witness :
    dictGet (buildLori dfA "1") "default" = some (leaseRoyaltyOf rLeaseA)
    ∧ resolveLori dfA "1" "ZZZ" = leaseRoyaltyOf rLeaseA :=
  ⟨(claim5_default_first_amended dfA "1" rLeaseA [] (by decide) (by simp)).1,
    (claim5_default_first_amended dfA "1" rLeaseA [] (by decide) (by simp)).2
      "ZZZ" (by decide)⟩

/-- C6 counterexample: tract `1` has MI rows on lease `A` (royalty `1/8`)
then lease `B` (royalty `1/4`).  The `default` entry is `1/8`, the rate of
the first row — not that of the last-seen lease (`1/4`) as the claim
states. -/
theorem claim6_default_last_counterexample :
    miRows dfLease2 "1" = [rLeaseA, rLeaseB]
    ∧ leaseRoyaltyOf rLeaseB = 1 / 4
    ∧ dictGet (buildLori dfLease2 "1") "default" = some (1 / 8)
    ∧ (1 / 8 : ℚ) ≠ 1 / 4 := by
  have h1 : miRows dfLease2 "1" = [rLeaseA, rLeaseB] := by decide
  have h2 : leaseRoyaltyOf rLeaseB = mkRat 1 4 := by decide
  have h3 : dictGet (buildLori dfLease2 "1") "default" = some (mkRat 1 8) := by decide
  have e4 : (mkRat 1 4 : ℚ) = 1 / 4 := by norm_num [Rat.mkRat_eq_div]
  have e8 : (mkRat 1 8 : ℚ) = 1 / 8 := by norm_num [Rat.mkRat_eq_div]
  refine ⟨h1, by rw [h2, e4], by rw [h3, e8], by norm_num⟩

/-- C6 as amended: the `default` entry equals the rate of the first MI
row processed for the tract (barring a later literal `"default"` lease),
and whenever the last row's rate differs from the first's, the entry is
not the last-seen rate. -/
theorem claim6_default_first_seen_amended (df : Df) (t : String) (r : Row) (l : List Row)
    (hc : miRows df t = r :: l)
    (hd : ∀ x ∈ l, leaseRaw x ≠ "default") :
    dictGet (buildLori df t) "default" = some (leaseRoyaltyOf r)
    ∧ ∀ rl, (r :: l).getLast? = some rl →
        leaseRoyaltyOf rl ≠ leaseRoyaltyOf r →
        dictGet (buildLori df t) "default" ≠ some (leaseRoyaltyOf rl) := by
  have h1 := buildLori_default df t r l hc hd
  refine ⟨h1, fun rl _ hne heq => ?_⟩
  rw [h1] at heq
  exact hne (Option.some_inj.mp heq).symm

/-- Witness for the amended C6, on the two-lease tract. -/
theorem claim6_default_first_seen_amended_witness :
    dictGet (buildLori dfLease2 "1") "default" = some (leaseRoyaltyOf rLeaseA)
    ∧ dictGet (buildLori dfLease2 "1") "default" ≠ some (leaseRoyaltyOf rLeaseB) :=
  ⟨(claim6_default_first_seen_amended dfLease2 "1" rLeaseA [rLeaseB]
      (by decide) (by decide)).1,
    (claim6_default_first_seen_amended dfLease2 "1" rLeaseA [rLeaseB]
      (by decide) (by decide)).2 rLeaseB (by decide) (by decide)⟩

/-- C7 counterexample: `dfTwo` has two tracts with `TRACT NRI` totals of
`1/2` each, and `alHalf` allocates `1/N = 1/2` to each of exactly those
tracts.  The tract-based grand total is `1` while the unit-based grand
total is `1/2` — the two are not equal, contrary to the round-trip
claim. -/
theorem claim7_roundtrip_counterexample :
    uniqueTracts dfTwo = ["1", "2"]
    ∧ allocKeys alHalf = ["1", "2"]
    ∧ (1 : ℚ) / ((uniqueTracts dfTwo).length : ℚ) = 1 / 2
    ∧ alHalf.map (fun p => p.2.allocation) = [1 / 2, 1 / 2]
    ∧ trGrand dfTwo = 1
    ∧ uGrand dfTwo alHalf = 1 / 2
    ∧ uGrand dfTwo alHalf ≠ trGrand dfTwo := by
  have hs : sortedTracts dfTwo = ["1", "2"] := by decide
  have hm1 : catTractRows dfTwo "MI" "1" = [rT1] := by decide
  have hm2 : catTractRows dfTwo "MI" "2" = [rT2] := by decide
  have ho1 : catTractRows dfTwo "ORI" "1" = [] := by decide
  have ho2 : catTractRows dfTwo "ORI" "2" = [] := by decide
  have hw1 : catTractRows dfTwo "WI" "1" = [] := by decide
  have hw2 : catTractRows dfTwo "WI" "2" = [] := by decide
  have hn1 : npriTractRows dfTwo "1" = [] := by decide
  have hn2 : npriTractRows dfTwo "2" = [] := by decide
  have ht1 : trNRI rT1 = mkRat 1 2 := by decide
  have ht2 : trNRI rT2 = mkRat 1 2 := by decide
  have hgr : trGrand dfTwo = 1 := by
    rw [trGrand, hs]
    simp [trRecapCat, trRecapNPRI, hm1, hm2, ho1, ho2, hw1, hw2, hn1, hn2, ht1, ht2]
    norm_num [Rat.mkRat_eq_div]
  have hug : uGrand dfTwo alHalf = 1 / 2 := by
    have ks : sortedAllocTracts alHalf = ["1", "2"] := by decide
    have km1 : catTractRows (dfUnit dfTwo alHalf) "MI" "1" = [rT1] := by decide
    have km2 : catTractRows (dfUnit dfTwo alHalf) "MI" "2" = [rT2] := by decide
    have ko1 : catTractRows (dfUnit dfTwo alHalf) "ORI" "1" = [] := by decide
    have ko2 : catTractRows (dfUnit dfTwo alHalf) "ORI" "2" = [] := by decide
    have kw1 : catTractRows (dfUnit dfTwo alHalf) "WI" "1" = [] := by decide
    have kw2 : catTractRows (dfUnit dfTwo alHalf) "WI" "2" = [] := by decide
    have kn1 : npriTractRows (dfUnit dfTwo alHalf) "1" = [] := by decide
    have kn2 : npriTractRows (dfUnit dfTwo alHalf) "2" = [] := by decide
    have ka1 : allocOf alHalf "1" = mkRat 1 2 := by decide
    have ka2 : allocOf alHalf "2" = mkRat 1 2 := by decide
    rw [uGrand, ks]
    simp [uRecapCat, uRecapNPRI, km1, km2, ko1, ko2, kw1, kw2, kn1, kn2,
      ht1, ht2, ka1, ka2]
    norm_num [Rat.mkRat_eq_div]
  refine ⟨by decide, by decide, ?_, ?_, hgr, hug, ?_⟩
  · have hlen : (uniqueTracts dfTwo).length = 2 := by decide
    rw [hlen]
    norm_num
  · show [(⟨mkRat 1 2, 0, ""⟩ : AllocEntry).allocation,
      (⟨mkRat 1 2, 0, ""⟩ : AllocEntry).allocation] = [1 / 2, 1 / 2]
    norm_num [Rat.mkRat_eq_div]
  · rw [hgr, hug]
    norm_num

/-- C7 as amended: with the allocation table carrying exactly the
dataset's `N` distinct tracts, each with factor `1/N`, the unit-based
grand total equals `1/N` times the tract-based grand total (the average
per-tract total), not the tract-based grand total itself. -/
theorem claim7_roundtrip_amended (df : Df) (al : AllocTable)
    (hnd : (allocKeys al).Nodup)
    (hmem : ∀ t, t ∈ allocKeys al ↔ t ∈ uniqueTracts df)
    (hall : ∀ p ∈ al, p.2.allocation = 1 / ((uniqueTracts df).length : ℚ)) :
    uGrand df al = (1 / ((uniqueTracts df).length : ℚ)) * trGrand df := by
  have hdf : dfUnit df al = df := by
    rw [dfUnit]
    apply List.filter_eq_self.mpr
    intro r hr
    rw [decide_eq_true_iff]
    exact (hmem _).mpr (mem_map_tractOf df r hr)
  have hN : ∀ t ∈ allocKeys al, allocOf al t = 1 / ((uniqueTracts df).length : ℚ) := by
    intro t ht
    obtain ⟨e, he⟩ := dictGet_of_mem_keys al t ht
    rw [allocOf, he]
    exact hall (t, e) (mem_of_dictGet al t e he)
  have hperm := sortedAlloc_perm_sortedTracts df al hnd hmem
  have hMI := col_sum_eq df al (fun d t => catTractRows d "MI" t) _ hdf hperm hN
  have hNPRI := col_sum_eq df al (fun d t => npriTractRows d t) _ hdf hperm hN
  have hORI := col_sum_eq df al (fun d t => catTractRows d "ORI" t) _ hdf hperm hN
  have hWI := col_sum_eq df al (fun d t => catTractRows d "WI" t) _ hdf hperm hN
  simp only at hMI hNPRI hORI hWI
  unfold uGrand trGrand uRecapCat uRecapNPRI trRecapCat trRecapNPRI
  rw [hMI, hNPRI, hORI, hWI]
  ring

/-- Witness for the amended C7 at the two-tract dataset: the unit grand
total is half the tract-based grand total. -/
theorem claim7_roundtrip_amended_witness :
    uGrand dfTwo alHalf = (1 / ((uniqueTracts dfTwo).length : ℚ)) * trGrand dfTwo :=
  claim7_roundtrip_amended dfTwo alHalf (by decide)
    (fun t => by rw [show allocKeys alHalf = uniqueTracts dfTwo from by decide])
    (by
      intro p hp
      have hlen : (uniqueTracts dfTwo).length = 2 := by decide
      rw [hlen]
      rcases List.mem_cons.mp hp with rfl | hp2
      · norm_num [Rat.mkRat_eq_div]
      · rcases List.mem_cons.mp hp2 with rfl | hp3
        · norm_num [Rat.mkRat_eq_div]
        · exact absurd hp3 (by simp))

/-- C8: the tract ordering is total and transitive; float-parseable
strings strictly precede non-parseable ones and compare by numeric value;
non-parseable strings compare by lower-cased head then numeric trailing
suffix, a string without trailing digits keying as its full lower-case
text with suffix `0`; and sorting any permutation of
`["1", "2", "10", "11", "Oram 1", "Oram 2", "Oram 10"]` returns exactly
that order. -/
theorem claim8_tract_ordering :
    (∀ a b : String, tractLe a b ∨ tractLe b a)
    ∧ (∀ a b c : String, tractLe a b → tractLe b c → tractLe a c)
    ∧ (∀ (a b : String) (qa : ℚ), parseFloat a = some qa → parseFloat b = none →
        tractLe a b ∧ ¬ tractLe b a)
    ∧ (∀ (a b : String) (qa qb : ℚ), parseFloat a = some qa → parseFloat b = some qb →
        (tractLe a b ↔ qa ≤ qb))
    ∧ (∀ a b : String, parseFloat a = none → parseFloat b = none →
        (tractLe a b ↔ (chListLT (tractTextKey a).1 (tractTextKey b).1 = true ∨
          ((tractTextKey a).1 = (tractTextKey b).1 ∧ (tractTextKey a).2 ≤ (tractTextKey b).2))))
    ∧ (∀ a : String, a.data.reverse.takeWhile (·.isDigit) = [] →
        tractTextKey a = ((strLower a).data, 0))
    ∧ (∀ l : List String, l.Perm oramList → List.insertionSort tractLe l = oramList) := by
  have hdecn : ∀ s : String, parseFloat s = none → parseDec s = none := by
    intro s h
    rw [parseFloat] at h
    exact Option.map_eq_none'.mp h
  have hdecs : ∀ (s : String) (q : ℚ), parseFloat s = some q →
      ∃ p, parseDec s = some p ∧ decVal p = q := by
    intro s q h
    rw [parseFloat] at h
    obtain ⟨p, hp, hv⟩ := Option.map_eq_some'.mp h
    exact ⟨p, hp, hv⟩
  refine ⟨?_, ?_, ?_, ?_, ?_, ?_, sort_perm_oram⟩
  · intro a b
    exact keyLE_total (tractKey a) (tractKey b)
  · intro a b c
    exact keyLE_trans (tractKey a) (tractKey b) (tractKey c)
  · intro a b qa ha hb
    obtain ⟨p, hp, _⟩ := hdecs a qa ha
    have hkb : tractKey b = Sum.inr (tractTextKey b) := by
      rw [tractKey, hdecn b hb]
    have hka : tractKey a = Sum.inl p := by
      rw [tractKey, hp]
    constructor
    · rw [tractLe, tractLeB, hka, hkb]
      rfl
    · rw [tractLe, tractLeB, hkb, hka]
      simp [keyLE]
  · intro a b qa qb ha hb
    obtain ⟨p, hp, hv⟩ := hdecs a qa ha
    obtain ⟨q, hq, hw⟩ := hdecs b qb hb
    rw [tractLe, tractLeB, tractKey, hp, tractKey, hq]
    show numLE p q = true ↔ _
    rw [numLE_iff, hv, hw]
  · intro a b ha hb
    rw [tractLe, tractLeB, tractKey, hdecn a ha, tractKey, hdecn b hb]
    show keyLE (Sum.inr (tractTextKey a)) (Sum.inr (tractTextKey b)) = true ↔ _
    simp [keyLE]
  · intro a h
    rw [tractTextKey]
    simp [h]

/-- Witness for C8: concrete numeric and mixed comparisons, and the
sorting of one concrete permutation of the seven-element example. -/
theorem claim8_tract_ordering_witness :
    (tractLe "2" "10" ↔ (2 : ℚ) ≤ 10)
    ∧ (tractLe "11" "Oram 1" ∧ ¬ tractLe "Oram 1" "11")
    ∧ List.insertionSort tractLe ["Oram 10", "11", "Oram 1", "2", "1", "Oram 2", "10"]
        = oramList := by
  have h2 : parseFloat "2" = some 2 := by
    have hd : parseDec "2" = some (2, 0) := by decide
    rw [parseFloat, hd]
    simp [decVal, tenPow]
  have h10 : parseFloat "10" = some 10 := by
    have hd : parseDec "10" = some (10, 0) := by decide
    rw [parseFloat, hd]
    simp [decVal, tenPow]
  have h11 : parseFloat "11" = some 11 := by
    have hd : parseDec "11" = some (11, 0) := by decide
    rw [parseFloat, hd]
    simp [decVal, tenPow]
  have ho1 : parseFloat "Oram 1" = none := by
    have hd : parseDec "Oram 1" = none := by decide
    rw [parseFloat, hd]
    rfl
  exact ⟨claim8_tract_ordering.2.2.2.1 "2" "10" 2 10 h2 h10,
    claim8_tract_ordering.2.2.1 "11" "Oram 1" 11 h11 ho1,
    claim8_tract_ordering.2.2.2.2.2.2 _ (by decide)⟩

/-- C9: the Allocation Loader succeeds exactly when the sheet has a
`Tract` marker row (first cell, case-insensitively) whose following
region, ending at a missing tract cell or a `Total Unit Acres` row,
contains at least one allocation row; with no marker row it fails with
the schedule-format error, and a successful load never returns an empty
table. -/
theorem claim9_allocation_loader (sched : List (List Cell)) :
    ((∃ a, loadTractAllocations sched = .ok a) ↔
      ∃ i, markerIdx sched = some i ∧ regionHasEntry (sched.drop (i + 1)) = true)
    ∧ (markerIdx sched = none →
        loadTractAllocations sched = .error "Could not find Tract allocation data in file")
    ∧ (∀ a, loadTractAllocations sched = .ok a → a ≠ []) := by
  refine ⟨?_, ?_, ?_⟩
  · cases hm : markerIdx sched with
    | none =>
      simp only [loadTractAllocations, hm]
      simp
    | some i =>
      simp only [loadTractAllocations, hm]
      by_cases he : (collectAllocs (sched.drop (i + 1)) []).isEmpty = true
      · rw [if_pos he]
        simp only [List.isEmpty_iff] at he
        constructor
        · rintro ⟨a, ha⟩
          exact absurd ha (by simp)
        · rintro ⟨j, hj, hr⟩
          have hj2 : i = j := Option.some_inj.mp hj
          subst hj2
          have := (collectAllocs_ne_nil (sched.drop (i + 1)) []).mpr (Or.inl hr)
          exact absurd he this
      · rw [if_neg he]
        simp only [List.isEmpty_iff] at he
        constructor
        · intro _
          refine ⟨i, rfl, ?_⟩
          rcases (collectAllocs_ne_nil (sched.drop (i + 1)) []).mp he with h | h
          · exact h
          · exact absurd rfl h
        · intro _
          exact ⟨_, rfl⟩
  · intro hm
    simp only [loadTractAllocations, hm]
  · intro a ha
    cases hm : markerIdx sched with
    | none =>
      simp only [loadTractAllocations, hm] at ha
      exact absurd ha (by simp)
    | some i =>
      simp only [loadTractAllocations, hm] at ha
      by_cases he : (collectAllocs (sched.drop (i + 1)) []).isEmpty = true
      · rw [if_pos he] at ha
        exact absurd ha (by simp)
      · rw [if_neg he] at ha
        have haeq : a = collectAllocs (sched.drop (i + 1)) [] :=
          (Except.ok.inj ha).symm
        rw [haeq]
        simp only [List.isEmpty_iff] at he
        exact he

/-- Witness for C9: a well-formed schedule loads, and a schedule without
the marker row fails with the format error. -/
theorem claim9_allocation_loader_witness :
    (∃ a, loadTractAllocations schedGood = .ok a)
    ∧ loadTractAllocations schedNoMarker =
        .error "Could not find Tract allocation data in file" :=
  ⟨(claim9_allocation_loader schedGood).1.mpr ⟨1, by decide, by decide⟩,
    (claim9_allocation_loader schedNoMarker).2.1 (by decide)⟩

/-- C10: a WI row of a tract that has no MI rows in the dataset feeding
the Burden Resolver resolves its `LORI` factor to `0` — the lookup finds
neither a lease entry nor a `default` entry — in both the tract-based and
the unit-based (tract-filtered) paths. -/
theorem claim10_no_mi_lori_zero (df : Df) (al : AllocTable) (r : Row) :
    (miRows df (tractOf r) = [] → (wiRowValues df r).lori = 0)
    ∧ (miRows (dfUnit df al) (tractOf r) = [] →
        (wiRowValues (dfUnit df al) r).lori = 0) :=
  ⟨fun h => resolveLori_of_no_mi df (tractOf r) (leaseNoOf r) h,
    fun h => resolveLori_of_no_mi (dfUnit df al) (tractOf r) (leaseNoOf r) h⟩

/-- Witness for C10 at the concrete WI-only dataset. -/
theorem claim10_no_mi_lori_zero_witness :
    (wiRowValues dfWi rWi).lori = 0
    ∧ (wiRowValues (dfUnit dfWi alOne) rWi).lori = 0 :=
  ⟨(claim10_no_mi_lori_zero dfWi alOne rWi).1 (by decide),
    (claim10_no_mi_lori_zero dfWi alOne rWi).2 (by decide)⟩
